import Mathlib

/-!
# BudgetPulse — verification of the data-manager / controller layer

Shallow embedding of the BudgetPulse client-side finance tracker.

The repository ships `js/ui-renderer.js` (month parsing, rendering),
`js/chart-manager.js` (chart updates) and `js/app-controller.js`
(event handlers).  The data-manager module itself (`js/data-manager.js`)
is not present in the sources; its operations are modelled from the
specification, each such definition carries a doc comment starting with
`Modelled from the spec:`.  Controller and UI functions present in the
sources are translated directly from the JavaScript.

JavaScript numbers that only ever get classified (NaN test, sign test)
are embedded as `JsNum`: NaN, the two infinities, or a finite rational.
Decimal amounts inside the data manager are embedded as rationals.
-/

namespace BudgetPulse

/-- A JavaScript number as far as the guards in this code base inspect it:
NaN, positive infinity, negative infinity, or a finite value (rational). -/
inductive JsNum where
  | nan : JsNum
  | posInf : JsNum
  | negInf : JsNum
  | fin : ℚ → JsNum
deriving DecidableEq

/-- `isNaN(x)` for a JavaScript number `x`. -/
def JsNum.isNaN : JsNum → Bool
  | .nan => true
  | _ => false

/-- The JavaScript comparison `x <= 0` (false on NaN). -/
def JsNum.leZero : JsNum → Bool
  | .nan => false
  | .posInf => false
  | .negInf => true
  | .fin q => q ≤ 0

/-- The JavaScript comparison `x >= 0` (false on NaN). -/
def JsNum.geZero : JsNum → Bool
  | .nan => false
  | .posInf => true
  | .negInf => false
  | .fin q => 0 ≤ q

/-- `Number.isFinite(x)`: true exactly on finite values. -/
def JsNum.isFinite : JsNum → Bool
  | .fin _ => true
  | _ => false

/-- A JavaScript value as far as `typeof v === "number"` distinguishes it:
either a number or some non-number value. -/
inductive JsVal where
  | num : JsNum → JsVal
  | other : JsVal
deriving DecidableEq

/-! ## Character-list string primitives

`String.splitOn` and `String.trim` do not reduce inside the kernel, so the
string manipulation the JavaScript performs is embedded structurally on the
character list (`String.toList`) of each string. -/

/-- `s.split(sep)` for a one-character separator, on character lists:
`splitOnChar sep cs acc` accumulates the current (reversed) piece in `acc`. -/
def splitOnCharAux (sep : Char) : List Char → List Char → List (List Char)
  | [], acc => [acc.reverse]
  | c :: cs, acc =>
    if c = sep then acc.reverse :: splitOnCharAux sep cs []
    else splitOnCharAux sep cs (c :: acc)

/-- JavaScript `s.split(sep)` for a one-character separator `sep`. -/
def splitOnChar (sep : Char) (cs : List Char) : List (List Char) :=
  splitOnCharAux sep cs []

/-- JavaScript `s.trim()` on a character list: strip leading and trailing
whitespace. -/
def trimChars (cs : List Char) : List Char :=
  ((cs.dropWhile Char.isWhitespace).reverse.dropWhile Char.isWhitespace).reverse

/-! ## Numeric string parsing (JavaScript `parseInt` / `parseFloat`) -/

/-- Value of a list of decimal digit characters, most significant first. -/
def digitsToNat (cs : List Char) : Nat :=
  cs.foldl (fun a c => a * 10 + (c.toNat - 48)) 0

/-- `parseInt(_, 10)` on a character list: skip leading whitespace, read an
optional sign, then the longest prefix of decimal digits; `none` (NaN) when
that prefix is empty.  Trailing garbage is ignored, as in JavaScript. -/
def jsParseIntChars (cs0 : List Char) : Option Int :=
  let cs := cs0.dropWhile Char.isWhitespace
  let signAndRest : Int × List Char :=
    match cs with
    | '-' :: r => (-1, r)
    | '+' :: r => (1, r)
    | r => (1, r)
  let digits := signAndRest.2.takeWhile Char.isDigit
  if digits.isEmpty then none
  else some (signAndRest.1 * (digitsToNat digits : Int))

/-- `parseInt(s, 10)`. -/
def jsParseInt10 (s : String) : Option Int :=
  jsParseIntChars s.toList

/-- `parseFloat(s)`: skip leading whitespace, read an optional sign, then the
longest prefix shaped `digits`, `digits.digits`, or `.digits`; `none` (NaN)
when no digit is read.  Exponent notation and the `Infinity` literal, which
no input of interest uses, are outside the model.  The value
`sign * (int + frac / 10^k)` is assembled as a single integer quotient so
that it evaluates inside the kernel. -/
def jsParseFloat (s : String) : Option ℚ :=
  let cs := s.toList.dropWhile Char.isWhitespace
  let signAndRest : Int × List Char :=
    match cs with
    | '-' :: r => (-1, r)
    | '+' :: r => (1, r)
    | r => (1, r)
  let intPart := signAndRest.2.takeWhile Char.isDigit
  let rest := signAndRest.2.dropWhile Char.isDigit
  match rest with
  | '.' :: r2 =>
    let fracPart := r2.takeWhile Char.isDigit
    if intPart.isEmpty && fracPart.isEmpty then none
    else
      some (Rat.divInt
        (signAndRest.1 * ((digitsToNat intPart * 10 ^ fracPart.length + digitsToNat fracPart : Nat) : Int))
        ((10 : Int) ^ fracPart.length))
  | _ =>
    if intPart.isEmpty then none
    else some (Rat.divInt (signAndRest.1 * (digitsToNat intPart : Int)) 1)

/-! ## Data model -/

/-- A stored transaction.  The generated opaque id is embedded as a natural
number; amounts are rationals (valid inputs are positive decimals). -/
structure Transaction where
  id : Nat
  date : String
  type : String
  description : String
  amount : ℚ
deriving DecidableEq

/-- Input to `addTransaction`: a transaction before an id is assigned. -/
structure NewTx where
  date : String
  type : String
  description : String
  amount : ℚ
deriving DecidableEq

/-- Raw form input handed to `validateTransaction`: all four fields as
strings, exactly as `handleAddTransaction` collects them from the form. -/
structure TxInput where
  date : String
  type : String
  description : String
  amount : String
deriving DecidableEq

/-- A validation error record `{field, message}`. -/
structure FieldError where
  field : String
  message : String
deriving DecidableEq

/-- Result of `validateTransaction`: `{isValid, errors}`. -/
structure ValidationResult where
  isValid : Bool
  errors : List FieldError
deriving DecidableEq

/-! ## Date validation -/

/-- Gregorian leap-year rule. -/
def isLeapYear (y : Int) : Bool :=
  (y % 4 == 0 && y % 100 != 0) || y % 400 == 0

/-- Number of days in month `m` of year `y` (months counted 1–12). -/
def daysInMonth (y : Int) (m : Nat) : Nat :=
  if m = 2 then (if isLeapYear y then 29 else 28)
  else if m = 4 ∨ m = 6 ∨ m = 9 ∨ m = 11 then 30
  else 31

/-- Modelled from the spec: a date field "must parse as a valid calendar
date"; dates travel as `YYYY-MM-DD` strings (the date input's format), so
this checks that shape with the month in 1–12 and the day within the month. -/
def isValidDateString (s : String) : Bool :=
  match splitOnChar '-' s.toList with
  | [ys, ms, ds] =>
    ys.length == 4 && ys.all Char.isDigit &&
    ms.length == 2 && ms.all Char.isDigit &&
    ds.length == 2 && ds.all Char.isDigit &&
    (let y : Int := (digitsToNat ys : Int)
     let m := digitsToNat ms
     let d := digitsToNat ds
     decide (1 ≤ m) && decide (m ≤ 12) && decide (1 ≤ d) && decide (d ≤ daysInMonth y m))
  | _ => false

/-! ## validateTransaction (data manager, modelled from the spec) -/

/-- Modelled from the spec: `date` required and a valid calendar date. -/
def dateOk (i : TxInput) : Bool :=
  isValidDateString i.date

/-- Modelled from the spec: `type` required, exactly `income` or `expense`. -/
def typeOk (i : TxInput) : Bool :=
  i.type == "income" || i.type == "expense"

/-- Modelled from the spec: `description` required, non-empty after trimming
whitespace. -/
def descriptionOk (i : TxInput) : Bool :=
  !(trimChars i.description.toList).isEmpty

/-- Modelled from the spec: `amount` required, must parse as a number and be
strictly positive. -/
def amountOk (i : TxInput) : Bool :=
  match jsParseFloat i.amount with
  | some q => decide (0 < q)
  | none => false

/-- Modelled from the spec: `validateTransaction` from the absent
`data-manager.js`.  All four rules are checked (no short-circuit); each
violated field contributes one `{field, message}` record, in field order. -/
def validateTransaction (i : TxInput) : ValidationResult :=
  let errs : List FieldError :=
    (if dateOk i then [] else [⟨"date", "Date is required and must be a valid date"⟩]) ++
    (if typeOk i then [] else [⟨"type", "Type must be income or expense"⟩]) ++
    (if descriptionOk i then [] else [⟨"description", "Description is required"⟩]) ++
    (if amountOk i then [] else [⟨"amount", "Amount must be a positive number"⟩])
  ⟨errs.isEmpty, errs⟩

/-! ## Aggregation (data manager, modelled from the spec) -/

/-- Modelled from the spec: sum of `amount` over entries whose `type` is
`income`, as a left fold over the list (a JavaScript `reduce`). -/
def calculateTotalIncome (ts : List Transaction) : ℚ :=
  ts.foldl (fun acc t => if t.type == "income" then acc + t.amount else acc) 0

/-- Modelled from the spec: sum of `amount` over entries whose `type` is
`expense`, as a left fold over the list (a JavaScript `reduce`). -/
def calculateTotalExpenses (ts : List Transaction) : ℚ :=
  ts.foldl (fun acc t => if t.type == "expense" then acc + t.amount else acc) 0

/-- Modelled from the spec: `calculateRemainingBudget(limit, totalExpenses)`
is `limit - totalExpenses`, possibly negative. -/
def calculateRemainingBudget (limit totalExpenses : ℚ) : ℚ :=
  limit - totalExpenses

/-- Modelled from the spec: `getBudgetStatus` is `"over"` when
`totalExpenses > limit`, else `"within"`. -/
def getBudgetStatus (limit totalExpenses : ℚ) : String :=
  if totalExpenses > limit then "over" else "within"

/-! ## Data-manager state -/

/-- Modelled from the spec: the data manager's mutable module state — the
transaction collection, the per-month budget limits, the selected month and
the id generator.  `usedIds` is model instrumentation: it accumulates every
id ever handed out, so lifetime uniqueness can be stated. -/
structure DMState where
  transactions : List Transaction
  budgetLimits : List ((Int × Int) × ℚ)
  selectedMonth : Int × Int
  nextId : Nat
  usedIds : List Nat
deriving DecidableEq

/-- Modelled from the spec: the freshly initialized data manager — empty
collection, no limits, the current calendar month selected. -/
def initState : DMState :=
  { transactions := []
    budgetLimits := []
    selectedMonth := (2025, 10)
    nextId := 0
    usedIds := [] }

/-- Modelled from the spec: `addTransaction` assigns a generated id that is
unique across the collection's lifetime (the spec suggests a
timestamp+random composition; the model realises the uniqueness contract
with a fresh-id counter), appends the stored transaction and persists. -/
def addTransaction (s : DMState) (tx : NewTx) : Transaction × DMState :=
  let stored : Transaction :=
    { id := s.nextId, date := tx.date, type := tx.type,
      description := tx.description, amount := tx.amount }
  (stored,
    { s with
        transactions := s.transactions ++ [stored]
        nextId := s.nextId + 1
        usedIds := s.nextId :: s.usedIds })

/-- Modelled from the spec: `deleteTransaction(id)` removes the matching
entry and returns true when found; returns false and leaves the collection
unchanged when no entry matches. -/
def deleteTransaction (s : DMState) (id : Nat) : Bool × DMState :=
  if s.transactions.any (fun t => t.id == id) then
    (true, { s with transactions := s.transactions.filter (fun t => t.id != id) })
  else
    (false, s)

/-- Modelled from the spec: `setBudgetLimit` rejects `value <= 0` and
otherwise stores the value for the given month, replacing any previous
entry. -/
def setBudgetLimit (s : DMState) (y m : Int) (v : ℚ) : DMState :=
  if v ≤ 0 then s
  else
    { s with
        budgetLimits := ((y, m), v) :: s.budgetLimits.filter (fun e => e.1 ≠ (y, m)) }

/-- Modelled from the spec: `getBudgetLimit` returns the stored limit for the
month, or 0 when unset. -/
def getBudgetLimit (s : DMState) (y m : Int) : ℚ :=
  match s.budgetLimits.find? (fun e => e.1 = (y, m)) with
  | some e => e.2
  | none => 0

/-- Modelled from the spec: `setSelectedMonth` is a simple session-state
setter. -/
def setSelectedMonth (s : DMState) (y m : Int) : DMState :=
  { s with selectedMonth := (y, m) }

/-- States of the data manager reachable from a fresh start through its
public mutating operations. -/
inductive Reachable : DMState → Prop where
  | init : Reachable initState
  | add (s : DMState) (tx : NewTx) : Reachable s → Reachable (addTransaction s tx).2
  | delete (s : DMState) (id : Nat) : Reachable s → Reachable (deleteTransaction s id).2
  | setLimit (s : DMState) (y m : Int) (v : ℚ) : Reachable s → Reachable (setBudgetLimit s y m v)
  | setMonth (s : DMState) (y m : Int) : Reachable s → Reachable (setSelectedMonth s y m)

/-! ## UI renderer: month parsing (from `js/ui-renderer.js`) -/

/-- `parseMonthValue(value)` from `ui-renderer.js`: null for a falsy or
non-string value; otherwise split on `-`, require exactly two parts, parse
both with `parseInt(_, 10)`, require both numeric and the month in 1–12,
and return `{year, month}`. -/
def parseMonthValue (value : String) : Option (Int × Int) :=
  if value = "" then none
  else
    match splitOnChar '-' value.toList with
    | [p1, p2] =>
      match jsParseIntChars p1, jsParseIntChars p2 with
      | some year, some month =>
        if month < 1 ∨ month > 12 then none else some (year, month)
      | _, _ => none
    | _ => none

/-! ## Controller (from `js/app-controller.js`) -/

/-- `handleMonthChange(year, month)` from `app-controller.js`: stores the
selected month in the data manager (the subsequent `refreshUI` renders but
does not mutate data-manager state). -/
def handleMonthChange (s : DMState) (y m : Int) : DMState :=
  setSelectedMonth s y m

/-- The month-selector change listener wired in `setupEventListeners`:
parse the input value with `parseMonthValue` and call `handleMonthChange`
only when parsing succeeded. -/
def monthChangeListener (s : DMState) (value : String) : DMState :=
  match parseMonthValue value with
  | some (y, m) => handleMonthChange s y m
  | none => s

/-- `handleBudgetLimitChange(limit)` from `app-controller.js`: when
`isNaN(limit) || limit <= 0` the update is skipped (the current limit is
only re-displayed) and the state is returned unchanged with no setter call;
otherwise `setBudgetLimit` is called for the selected month.  The second
component records the value passed to `setBudgetLimit` (`none` when it is
not invoked); the rational-valued limit map is updated only for finite
values, the setter's behaviour on a non-finite argument being specified
nowhere. -/
def handleBudgetLimitChange (s : DMState) (limit : JsNum) : DMState × Option JsNum :=
  if limit.isNaN || limit.leZero then (s, none)
  else
    match limit with
    | .fin q => (setBudgetLimit s s.selectedMonth.1 s.selectedMonth.2 q, some limit)
    | x => (s, some x)

/-- Outcome of a form submission: the data-manager state afterwards, the
errors shown via `showValidationError`, and whether a transaction was
added. -/
structure AddOutcome where
  state : DMState
  displayed : List FieldError
  added : Bool
deriving DecidableEq

/-- `handleAddTransaction` from `app-controller.js`: collect the form
values, validate with `DataManager.validateTransaction`; when invalid,
show each error via `showValidationError` and return without adding;
when valid, add the transaction with the trimmed description and the
`parseFloat`-parsed amount. -/
def handleAddTransaction (s : DMState) (form : TxInput) : AddOutcome :=
  let validation := validateTransaction form
  if validation.isValid then
    let tx : NewTx :=
      { date := form.date
        type := form.type
        description := ⟨trimChars form.description.toList⟩
        amount := (jsParseFloat form.amount).getD 0 }
    { state := (addTransaction s tx).2, displayed := [], added := true }
  else
    { state := s, displayed := validation.errors, added := false }

/-- `handleDeleteTransaction(id)` from `app-controller.js`: delete through
the data manager; the UI is refreshed only when something was deleted. -/
def handleDeleteTransaction (s : DMState) (id : Nat) : DMState :=
  (deleteTransaction s id).2

/-! ## Chart manager (from `js/chart-manager.js`) -/

/-- The `validIncome` / `validExpenses` guard in `updateChart`:
`typeof v === "number" && !isNaN(v) && v >= 0 ? v : 0`. -/
def chartValidAmount (v : JsVal) : JsNum :=
  match v with
  | .num x => if x.isNaN = false ∧ x.geZero = true then x else .fin 0
  | .other => .fin 0

/-- The `validSavings` guard in `updateChart`:
`typeof v === "number" && !isNaN(v) ? v : 0`. -/
def chartValidSavings (v : JsVal) : JsNum :=
  match v with
  | .num x => if x.isNaN = false then x else .fin 0
  | .other => .fin 0

/-- `updateChart(income, expenses, savings)` from `chart-manager.js`,
restricted to the data it renders: the triple written to
`chart.data.datasets[0].data` (equally the pair shown by the fallback
display, which receives the same first two values). -/
def updateChart (income expenses savings : JsVal) : JsNum × JsNum × JsNum :=
  (chartValidAmount income, chartValidAmount expenses, chartValidSavings savings)

/-! ## Theorems -/

/-- Claim C3: `getBudgetStatus(limit, totalExpenses)` returns `"over"` iff
`totalExpenses > limit` and `"within"` iff `totalExpenses <= limit`; at the
boundary `totalExpenses = limit` the result is `"within"`. -/
theorem getBudgetStatus_spec (limit totalExpenses : ℚ) :
    (getBudgetStatus limit totalExpenses = "over" ↔ totalExpenses > limit)
    ∧ (getBudgetStatus limit totalExpenses = "within" ↔ totalExpenses ≤ limit)
    ∧ getBudgetStatus limit limit = "within" := by
  unfold getBudgetStatus
  refine ⟨?_, ?_, by simp⟩ <;> split <;> rename_i h <;> simp_all

/-- Witness for C3: at limit 800 and expenses 300 the status is `"within"`. -/
theorem getBudgetStatus_spec_witness : getBudgetStatus 800 300 = "within" :=
  (getBudgetStatus_spec 800 300).2.1.mpr (by decide)

/-- Claim C5: `calculateRemainingBudget(limit, totalExpenses)` equals
`limit - totalExpenses` for all rational inputs, and is negative whenever
the expenses exceed the limit. -/
theorem calculateRemainingBudget_spec (limit totalExpenses : ℚ) :
    calculateRemainingBudget limit totalExpenses = limit - totalExpenses
    ∧ (limit < totalExpenses → calculateRemainingBudget limit totalExpenses < 0) := by
  refine ⟨rfl, fun h => ?_⟩
  simpa [calculateRemainingBudget, sub_neg] using h

/-- Witness for C5: with limit 1 and expenses 2 the remaining budget is
negative. -/
theorem calculateRemainingBudget_spec_witness : calculateRemainingBudget 1 2 < 0 :=
  (calculateRemainingBudget_spec 1 2).2 (by decide)

/-- Claim C7, counterexample: `handleBudgetLimitChange` called with positive
infinity passes it on to `setBudgetLimit` even though it is not a finite
number — the guard `isNaN(limit) || limit <= 0` does not test finiteness. -/
theorem handleBudgetLimitChange_passes_infinity :
    (handleBudgetLimitChange initState JsNum.posInf).2 = some JsNum.posInf
    ∧ JsNum.posInf.isFinite = false := by
  decide

/-- Claim C7 (amended): when the limit is NaN or `<= 0` the change is
rejected — `setBudgetLimit` is not invoked and the whole data-manager state
(in particular every month's stored limit) is unchanged; every value that is
passed on to `setBudgetLimit` is a non-NaN number with `limit <= 0` false,
though not necessarily finite. -/
theorem handleBudgetLimitChange_spec (s : DMState) (limit : JsNum) :
    ((limit.isNaN || limit.leZero) = true →
      handleBudgetLimitChange s limit = (s, none))
    ∧ (∀ v, (handleBudgetLimitChange s limit).2 = some v →
        v.isNaN = false ∧ v.leZero = false ∧ v = limit) := by
  constructor
  · intro h
    unfold handleBudgetLimitChange
    simp [h]
  · intro v hv
    cases limit with
    | nan => simp [handleBudgetLimitChange, JsNum.isNaN] at hv
    | negInf => simp [handleBudgetLimitChange, JsNum.isNaN, JsNum.leZero] at hv
    | posInf =>
      simp [handleBudgetLimitChange, JsNum.isNaN, JsNum.leZero] at hv
      subst hv
      exact ⟨rfl, rfl, rfl⟩
    | fin q =>
      by_cases hq : q ≤ 0
      · simp [handleBudgetLimitChange, JsNum.isNaN, JsNum.leZero, hq] at hv
      · simp [handleBudgetLimitChange, JsNum.isNaN, JsNum.leZero, hq] at hv
        subst hv
        exact ⟨rfl, by simp [JsNum.leZero, hq], rfl⟩

/-- Witness for C7: a limit of −3 is rejected and the state is returned
untouched, with no value passed to the setter. -/
theorem handleBudgetLimitChange_spec_witness :
    handleBudgetLimitChange initState (JsNum.fin (-3)) = (initState, none) :=
  (handleBudgetLimitChange_spec initState (JsNum.fin (-3))).1 (by decide)

/-- Claim C8: when the form input fails validation, `handleAddTransaction`
leaves the data-manager state unchanged (no `addTransaction` call), reports
no addition, and displays exactly the validation errors via
`showValidationError`. -/
theorem handleAddTransaction_invalid_spec (s : DMState) (form : TxInput)
    (h : (validateTransaction form).isValid = false) :
    (handleAddTransaction s form).state = s
    ∧ (handleAddTransaction s form).added = false
    ∧ (handleAddTransaction s form).displayed = (validateTransaction form).errors
    ∧ ∀ e ∈ (validateTransaction form).errors, e ∈ (handleAddTransaction s form).displayed := by
  unfold handleAddTransaction
  simp [h]

/-- Witness for C8: the invalid scenario input leaves the fresh state
unchanged. -/
theorem handleAddTransaction_invalid_spec_witness :
    (handleAddTransaction initState ⟨"", "income", "", "-5"⟩).state = initState :=
  (handleAddTransaction_invalid_spec initState ⟨"", "income", "", "-5"⟩ (by decide)).1

/-- Claim C10, counterexample: an income of positive infinity is not a
finite number, yet `updateChart` renders it unchanged instead of replacing
it with 0 — the guard checks only `typeof`, `isNaN` and `>= 0`. -/
theorem updateChart_infinite_income_not_zeroed :
    (updateChart (JsVal.num JsNum.posInf) (JsVal.num (JsNum.fin 0))
        (JsVal.num (JsNum.fin 0))).1 = JsNum.posInf
    ∧ JsNum.posInf.isFinite = false := by
  decide

/-- Claim C10 (amended): `updateChart` renders income and expenses replaced
by 0 whenever they are not non-NaN numbers with `>= 0` true (positive
infinity, not being finite, still passes through), and renders savings
replaced by 0 exactly when it is not a number or NaN — in particular a
negative savings value is passed through unchanged. -/
theorem updateChart_spec (i e s : JsVal) :
    (∀ x, i = JsVal.num x → x.isNaN = false → x.geZero = true → (updateChart i e s).1 = x)
    ∧ ((updateChart i e s).1 = JsNum.fin 0
        ∨ ∃ x, i = JsVal.num x ∧ x.isNaN = false ∧ x.geZero = true ∧ (updateChart i e s).1 = x)
    ∧ (∀ x, e = JsVal.num x → x.isNaN = false → x.geZero = true → (updateChart i e s).2.1 = x)
    ∧ ((updateChart i e s).2.1 = JsNum.fin 0
        ∨ ∃ x, e = JsVal.num x ∧ x.isNaN = false ∧ x.geZero = true ∧ (updateChart i e s).2.1 = x)
    ∧ (∀ x, s = JsVal.num x → x.isNaN = false → (updateChart i e s).2.2 = x)
    ∧ ((updateChart i e s).2.2 = JsNum.fin 0
        ∨ ∃ x, s = JsVal.num x ∧ x.isNaN = false ∧ (updateChart i e s).2.2 = x) := by
  refine ⟨?_, ?_, ?_, ?_, ?_, ?_⟩
  · rintro x rfl hn hg
    simp [updateChart, chartValidAmount, hn, hg]
  · cases i with
    | other => left; simp [updateChart, chartValidAmount]
    | num x =>
      by_cases hn : x.isNaN = false
      · by_cases hg : x.geZero = true
        · right
          exact ⟨x, rfl, hn, hg, by simp [updateChart, chartValidAmount, hn, hg]⟩
        · left; simp [updateChart, chartValidAmount, hg]
      · left; simp [updateChart, chartValidAmount, hn]
  · rintro x rfl hn hg
    simp [updateChart, chartValidAmount, hn, hg]
  · cases e with
    | other => left; simp [updateChart, chartValidAmount]
    | num x =>
      by_cases hn : x.isNaN = false
      · by_cases hg : x.geZero = true
        · right
          exact ⟨x, rfl, hn, hg, by simp [updateChart, chartValidAmount, hn, hg]⟩
        · left; simp [updateChart, chartValidAmount, hg]
      · left; simp [updateChart, chartValidAmount, hn]
  · rintro x rfl hn
    simp [updateChart, chartValidSavings, hn]
  · cases s with
    | other => left; simp [updateChart, chartValidSavings]
    | num x =>
      by_cases hn : x.isNaN = false
      · right
        exact ⟨x, rfl, hn, by simp [updateChart, chartValidSavings, hn]⟩
      · left; simp [updateChart, chartValidSavings, hn]

/-- Witness for C10: a negative savings value (−2) is rendered unchanged. -/
theorem updateChart_spec_witness :
    (updateChart (JsVal.num (JsNum.fin 5)) (JsVal.num (JsNum.fin 0))
        (JsVal.num (JsNum.fin (-2)))).2.2 = JsNum.fin (-2) :=
  (updateChart_spec (JsVal.num (JsNum.fin 5)) (JsVal.num (JsNum.fin 0))
      (JsVal.num (JsNum.fin (-2)))).2.2.2.2.1 (JsNum.fin (-2)) rfl (by decide)

/-- Claim C1, counterexample: on the scenario input
`{date: "", type: "income", description: "", amount: "-5"}` the validator
reports three errors, not four — `type` is `"income"`, which is valid, so
only `date`, `description` and `amount` are violated. -/
theorem validateTransaction_scenario_three_errors :
    (validateTransaction ⟨"", "income", "", "-5"⟩).isValid = false
    ∧ (validateTransaction ⟨"", "income", "", "-5"⟩).errors.map (fun e => e.field)
        = ["date", "description", "amount"]
    ∧ (validateTransaction ⟨"", "income", "", "-5"⟩).errors.length = 3 := by
  decide

/-- Claim C1 (amended): `validateTransaction` checks every rule without
short-circuiting, reporting one `{field, message}` record per violated
field — a field appears among the reported error fields exactly when its
rule is violated, no field is reported twice, and `isValid` holds exactly
when all four rules pass.  On the scenario input three fields are violated
(`type` `"income"` is valid), giving three errors. -/
theorem validateTransaction_reports_all_violations (i : TxInput) :
    ((validateTransaction i).isValid = (dateOk i && typeOk i && descriptionOk i && amountOk i))
    ∧ ((validateTransaction i).errors.map (fun e => e.field)).Nodup
    ∧ ("date" ∈ (validateTransaction i).errors.map (fun e => e.field) ↔ dateOk i = false)
    ∧ ("type" ∈ (validateTransaction i).errors.map (fun e => e.field) ↔ typeOk i = false)
    ∧ ("description" ∈ (validateTransaction i).errors.map (fun e => e.field) ↔ descriptionOk i = false)
    ∧ ("amount" ∈ (validateTransaction i).errors.map (fun e => e.field) ↔ amountOk i = false) := by
  cases hd : dateOk i <;> cases ht : typeOk i <;> cases hde : descriptionOk i <;>
    cases ha : amountOk i <;>
      simp [validateTransaction, hd, ht, hde, ha]

/-- Witness for C1: on the scenario input the `amount` rule is reported as
violated. -/
theorem validateTransaction_reports_all_violations_witness :
    "amount" ∈ (validateTransaction ⟨"", "income", "", "-5"⟩).errors.map (fun e => e.field) :=
  (validateTransaction_reports_all_violations ⟨"", "income", "", "-5"⟩).2.2.2.2.2.mpr (by decide)

/-- The type-restricted fold underlying the two total calculations equals
its starting value plus the sum of the amounts of the matching entries. -/
theorem foldl_type_sum (ty : String) (ts : List Transaction) (a : ℚ) :
    ts.foldl (fun acc t => if t.type == ty then acc + t.amount else acc) a
      = a + ((ts.filter (fun t => t.type == ty)).map Transaction.amount).sum := by
  induction ts generalizing a with
  | nil => simp
  | cons t ts ih =>
    rw [List.foldl_cons, List.filter_cons]
    by_cases h : (t.type == ty) = true
    · rw [if_pos h, if_pos h, ih, List.map_cons, List.sum_cons, add_assoc]
    · rw [if_neg h, if_neg h, ih]

/-- `calculateTotalIncome` sums exactly the amounts of the `income`
entries. -/
theorem calculateTotalIncome_eq_filter_sum (ts : List Transaction) :
    calculateTotalIncome ts
      = ((ts.filter (fun t => t.type == "income")).map Transaction.amount).sum := by
  unfold calculateTotalIncome
  rw [foldl_type_sum "income" ts 0, zero_add]

/-- `calculateTotalExpenses` sums exactly the amounts of the `expense`
entries. -/
theorem calculateTotalExpenses_eq_filter_sum (ts : List Transaction) :
    calculateTotalExpenses ts
      = ((ts.filter (fun t => t.type == "expense")).map Transaction.amount).sum := by
  unfold calculateTotalExpenses
  rw [foldl_type_sum "expense" ts 0, zero_add]

/-- When every entry is an `income` or an `expense`, the two filtered sums
partition the total sum of amounts. -/
theorem filter_income_expense_sum (ts : List Transaction)
    (h : ∀ t ∈ ts, t.type = "income" ∨ t.type = "expense") :
    ((ts.filter (fun t => t.type == "income")).map Transaction.amount).sum
      + ((ts.filter (fun t => t.type == "expense")).map Transaction.amount).sum
      = (ts.map Transaction.amount).sum := by
  induction ts with
  | nil => simp
  | cons t ts ih =>
    have ht := h t (List.mem_cons_self t ts)
    have ih' := ih (fun x hx => h x (List.mem_cons_of_mem t hx))
    rcases ht with ht | ht <;>
      simp [List.filter_cons, ht, ← ih', add_assoc, add_left_comm]

/-- Claim C4: for a list of valid transactions (each typed `income` or
`expense`), income plus expenses equals the sum of all amounts; each total
sums only the amounts of its own type; both totals are 0 on the empty
list. -/
theorem totals_partition_sum (ts : List Transaction)
    (h : ∀ t ∈ ts, t.type = "income" ∨ t.type = "expense") :
    calculateTotalIncome ts + calculateTotalExpenses ts = (ts.map Transaction.amount).sum
    ∧ calculateTotalIncome ts
        = ((ts.filter (fun t => t.type == "income")).map Transaction.amount).sum
    ∧ calculateTotalExpenses ts
        = ((ts.filter (fun t => t.type == "expense")).map Transaction.amount).sum
    ∧ calculateTotalIncome [] = 0
    ∧ calculateTotalExpenses [] = 0 := by
  refine ⟨?_, calculateTotalIncome_eq_filter_sum ts,
    calculateTotalExpenses_eq_filter_sum ts, rfl, rfl⟩
  rw [calculateTotalIncome_eq_filter_sum, calculateTotalExpenses_eq_filter_sum]
  exact filter_income_expense_sum ts h

/-- Witness for C4: on a one-element income list, income plus expenses is
the total amount. -/
theorem totals_partition_sum_witness :
    calculateTotalIncome [⟨0, "2025-01-05", "income", "salary", 1000⟩]
      + calculateTotalExpenses [⟨0, "2025-01-05", "income", "salary", 1000⟩]
      = (([⟨0, "2025-01-05", "income", "salary", 1000⟩] :
          List Transaction).map Transaction.amount).sum :=
  (totals_partition_sum [⟨0, "2025-01-05", "income", "salary", 1000⟩] (by simp)).1

/-- Removing the entries matching an id that occurs in a list with pairwise
distinct ids shortens the list by exactly one. -/
theorem filter_ne_id_length (ts : List Transaction) (id : Nat)
    (hd : (ts.map Transaction.id).Nodup) (hex : ∃ t ∈ ts, t.id = id) :
    (ts.filter (fun t => t.id != id)).length + 1 = ts.length := by
  induction ts with
  | nil => simp at hex
  | cons t ts ih =>
    simp only [List.map_cons, List.nodup_cons] at hd
    by_cases hh : t.id = id
    · have hall : ∀ x ∈ ts, (x.id != id) = true := by
        intro x hx
        have hne : x.id ≠ t.id := by
          intro he
          exact hd.1 (he ▸ List.mem_map_of_mem Transaction.id hx)
        simp [bne_iff_ne, hh ▸ hne]
      rw [List.filter_cons, show (t.id != id) = false by simp [hh]]
      rw [List.filter_eq_self.mpr hall]
      simp
    · rcases hex with ⟨u, hu, hid⟩
      rcases List.mem_cons.mp hu with rfl | hu'
      · exact absurd hid hh
      · have hcons : (t :: ts).filter (fun x => x.id != id)
            = t :: ts.filter (fun x => x.id != id) :=
          List.filter_cons_of_pos (by simp [bne_iff_ne, hh])
        have hih := ih hd.2 ⟨u, hu', hid⟩
        rw [hcons, List.length_cons, List.length_cons]
        omega

/-- Claim C6: with pairwise distinct stored ids, `deleteTransaction(id)`
returns true and removes exactly the one matching entry when the id exists
(every non-matching entry survives, every surviving entry was present and
does not match, and the length drops by one); when the id does not exist it
returns false with the state unchanged. -/
theorem deleteTransaction_spec (s : DMState) (id : Nat)
    (hd : (s.transactions.map Transaction.id).Nodup) :
    ((∃ t ∈ s.transactions, t.id = id) →
      (deleteTransaction s id).1 = true
      ∧ (deleteTransaction s id).2.transactions.length + 1 = s.transactions.length
      ∧ (∀ t ∈ (deleteTransaction s id).2.transactions,
          t ∈ s.transactions ∧ t.id ≠ id)
      ∧ (∀ t ∈ s.transactions, t.id ≠ id →
          t ∈ (deleteTransaction s id).2.transactions))
    ∧ ((¬ ∃ t ∈ s.transactions, t.id = id) → deleteTransaction s id = (false, s)) := by
  constructor
  · intro hex
    have hany : s.transactions.any (fun t => t.id == id) = true := by
      rcases hex with ⟨u, hu, hi⟩
      exact List.any_eq_true.mpr ⟨u, hu, by simp [hi]⟩
    unfold deleteTransaction
    rw [if_pos hany]
    refine ⟨rfl, filter_ne_id_length s.transactions id hd hex, ?_, ?_⟩
    · intro t ht
      have := List.mem_filter.mp ht
      exact ⟨this.1, by simpa [bne_iff_ne] using this.2⟩
    · intro t ht hne
      exact List.mem_filter.mpr ⟨ht, by simpa [bne_iff_ne] using hne⟩
  · intro hnone
    have hany : s.transactions.any (fun t => t.id == id) = false := by
      rw [← Bool.not_eq_true, List.any_eq_true]
      intro ⟨u, hu, he⟩
      exact hnone ⟨u, hu, by simpa using he⟩
    unfold deleteTransaction
    rw [if_neg (by simp [hany])]

/-- Witness for C6: deleting the generated id 0 from a state holding one
transaction succeeds. -/
theorem deleteTransaction_spec_witness :
    (deleteTransaction
        (addTransaction initState ⟨"2025-01-05", "income", "salary", 1000⟩).2 0).1 = true :=
  ((deleteTransaction_spec
      (addTransaction initState ⟨"2025-01-05", "income", "salary", 1000⟩).2 0
      (by decide)).1 (by decide)).1

/-- The id discipline of the data manager: stored ids are pairwise distinct,
every stored id has been recorded as handed out, all handed-out ids lie
below the generator counter, and no id was ever handed out twice. -/
def IdInvariant (s : DMState) : Prop :=
  (s.transactions.map Transaction.id).Nodup
  ∧ (∀ t ∈ s.transactions, t.id ∈ s.usedIds)
  ∧ (∀ i ∈ s.usedIds, i < s.nextId)
  ∧ s.usedIds.Nodup

/-- `addTransaction` preserves the id discipline: the generated id is fresh
for the whole lifetime, so appending it keeps all id lists duplicate-free. -/
theorem idInvariant_add (s : DMState) (tx : NewTx)
    (ih : IdInvariant s) : IdInvariant (addTransaction s tx).2 := by
  obtain ⟨h1, h2, h3, h4⟩ := ih
  have hfresh : s.nextId ∉ s.usedIds := fun hmem => absurd (h3 _ hmem) (lt_irrefl _)
  have hfreshT : s.nextId ∉ s.transactions.map Transaction.id := by
    intro hmem
    rcases List.mem_map.mp hmem with ⟨t, ht, hid⟩
    exact hfresh (hid ▸ h2 t ht)
  refine ⟨?_, ?_, ?_, ?_⟩
  · simp only [addTransaction, List.map_append, List.map_cons, List.map_nil]
    rw [List.nodup_append]
    exact ⟨h1, List.nodup_singleton _, by
      intro a ha hb
      simp only [List.mem_singleton] at hb
      exact hfreshT (hb ▸ ha)⟩
  · intro t ht
    simp only [addTransaction] at ht ⊢
    rcases List.mem_append.mp ht with ht' | ht'
    · exact List.mem_cons_of_mem _ (h2 t ht')
    · simp only [List.mem_singleton] at ht'
      subst ht'
      exact List.mem_cons_self _ _
  · intro i hi
    simp only [addTransaction] at hi ⊢
    rcases List.mem_cons.mp hi with rfl | hi'
    · exact Nat.lt_succ_self _
    · exact Nat.lt_succ_of_lt (h3 i hi')
  · simp only [addTransaction]
    exact List.nodup_cons.mpr ⟨hfresh, h4⟩

/-- Every reachable data-manager state satisfies the id discipline. -/
theorem reachable_idInvariant {s : DMState} (h : Reachable s) : IdInvariant s := by
  induction h with
  | init =>
    exact ⟨List.nodup_nil, by simp [initState], by simp [initState], List.nodup_nil⟩
  | add s tx _ ih => exact idInvariant_add s tx ih
  | delete s id _ ih =>
    obtain ⟨h1, h2, h3, h4⟩ := ih
    unfold deleteTransaction
    split
    · refine ⟨?_, ?_, h3, h4⟩
      · exact h1.sublist ((List.filter_sublist _).map Transaction.id)
      · exact fun t ht => h2 t (List.mem_of_mem_filter ht)
    · exact ⟨h1, h2, h3, h4⟩
  | setLimit s y m v _ ih =>
    obtain ⟨h1, h2, h3, h4⟩ := ih
    unfold setBudgetLimit
    split
    · exact ⟨h1, h2, h3, h4⟩
    · exact ⟨h1, h2, h3, h4⟩
  | setMonth s y m _ ih => exact ih

/-- Claim C2: in every reachable state of the data manager the stored
transactions have pairwise distinct ids; moreover the id `addTransaction`
generates collides with no id ever handed out during the collection's
lifetime (deleted entries included), and the collection stays
duplicate-free after the add. -/
theorem addTransaction_ids_unique (s : DMState) (h : Reachable s) :
    (s.transactions.map Transaction.id).Nodup
    ∧ (∀ tx : NewTx, (addTransaction s tx).1.id ∉ s.usedIds)
    ∧ (∀ tx : NewTx, ((addTransaction s tx).2.transactions.map Transaction.id).Nodup) := by
  have inv := reachable_idInvariant h
  refine ⟨inv.1, ?_, ?_⟩
  · intro tx hmem
    exact absurd (inv.2.2.1 _ hmem) (lt_irrefl _)
  · intro tx
    exact (idInvariant_add s tx inv).1

/-- Witness for C2: in the fresh state the first generated id (0) has never
been handed out before. -/
theorem addTransaction_ids_unique_witness :
    (addTransaction initState ⟨"2025-01-05", "income", "salary", 1000⟩).1.id
      ∉ initState.usedIds :=
  (addTransaction_ids_unique initState Reachable.init).2.1
    ⟨"2025-01-05", "income", "salary", 1000⟩

/-- Characterization of the success case of `parseMonthValue`: it returns
`{year, month}` exactly for a non-empty value splitting into two parts that
both `parseInt` accepts, with the month within 1–12. -/
theorem parseMonthValue_eq_some_iff (value : String) (y m : Int) :
    parseMonthValue value = some (y, m) ↔
      value ≠ "" ∧ ∃ p1 p2, splitOnChar '-' value.toList = [p1, p2]
        ∧ jsParseIntChars p1 = some y ∧ jsParseIntChars p2 = some m
        ∧ 1 ≤ m ∧ m ≤ 12 := by
  unfold parseMonthValue
  by_cases hv : value = ""
  · simp [hv]
  rw [if_neg hv]
  rcases hsp : splitOnChar '-' value.toList with _ | ⟨p1, _ | ⟨p2, _ | ⟨p3, rest⟩⟩⟩ <;>
    simp only [hsp]
  · simp [hv]
  · simp [hv]
  · rcases h1 : jsParseIntChars p1 with _ | y' <;>
      rcases h2 : jsParseIntChars p2 with _ | m' <;>
        simp only [h1, h2]
    · simp [hv, h1]
    · simp [hv, h1]
    · simp [hv, h2]
    · by_cases hm : m' < 1 ∨ m' > 12
      · rw [if_pos hm]
        simp only [hv, ne_eq, not_false_iff, true_and]
        constructor
        · intro hfalse
          cases hfalse
        · rintro ⟨q1, q2, hq, hy, hmm, hb1, hb2⟩
          injection hq with e1 e2
          injection e2 with e2 _
          subst e1
          subst e2
          rw [h2] at hmm
          injection hmm with hmm
          omega
      · rw [if_neg hm]
        simp only [Option.some_inj, Prod.mk.injEq, hv, ne_eq, not_false_iff, true_and]
        constructor
        · rintro ⟨rfl, rfl⟩
          exact ⟨p1, p2, rfl, h1, h2, by omega, by omega⟩
        · rintro ⟨q1, q2, hq, hy, hmm, _, _⟩
          injection hq with e1 e2
          injection e2 with e2 _
          subst e1
          subst e2
          rw [h1] at hy
          rw [h2] at hmm
          injection hy with hy
          injection hmm with hmm
          exact ⟨hy, hmm⟩
  · simp [hv]

/-- Claim C9: `parseMonthValue` returns null exactly when the value is not a
non-empty string of exactly two `-`-separated parts both accepted by
`parseInt` with the month part in 1–12; otherwise it returns exactly the
parsed integers.  Consequently, along the month-change path a month outside
1–12 never reaches `setSelectedMonth`: the listener either leaves the
selected month untouched or stores a month within 1–12. -/
theorem parseMonthValue_spec (value : String) :
    (parseMonthValue value = none ↔
      ¬ ∃ y m : Int, value ≠ "" ∧ ∃ p1 p2, splitOnChar '-' value.toList = [p1, p2]
          ∧ jsParseIntChars p1 = some y ∧ jsParseIntChars p2 = some m
          ∧ 1 ≤ m ∧ m ≤ 12)
    ∧ (∀ y m : Int, parseMonthValue value = some (y, m) →
        value ≠ "" ∧ ∃ p1 p2, splitOnChar '-' value.toList = [p1, p2]
          ∧ jsParseIntChars p1 = some y ∧ jsParseIntChars p2 = some m
          ∧ 1 ≤ m ∧ m ≤ 12)
    ∧ (∀ s : DMState,
        (monthChangeListener s value).selectedMonth = s.selectedMonth
        ∨ (1 ≤ (monthChangeListener s value).selectedMonth.2
            ∧ (monthChangeListener s value).selectedMonth.2 ≤ 12)) := by
  refine ⟨?_, fun y m hp => (parseMonthValue_eq_some_iff value y m).mp hp, ?_⟩
  · cases hp : parseMonthValue value with
    | none =>
      simp only [true_iff]
      rintro ⟨y, m, hcond⟩
      have := (parseMonthValue_eq_some_iff value y m).mpr hcond
      rw [hp] at this
      cases this
    | some ym =>
      obtain ⟨y, m⟩ := ym
      constructor
      · intro hfalse
        cases hfalse
      · intro hne
        exact absurd ⟨y, m, (parseMonthValue_eq_some_iff value y m).mp hp⟩ hne
  · intro s
    cases hp : parseMonthValue value with
    | none =>
      left
      simp [monthChangeListener, hp]
    | some ym =>
      obtain ⟨y, m⟩ := ym
      right
      obtain ⟨_, _, _, _, _, _, hb1, hb2⟩ := (parseMonthValue_eq_some_iff value y m).mp hp
      simp only [monthChangeListener, hp, handleMonthChange, setSelectedMonth]
      exact ⟨hb1, hb2⟩

/-- Witness for C9: the value `"2025-07"` parses to year 2025, month 7, and
the month lies within 1–12. -/
theorem parseMonthValue_spec_witness :
    parseMonthValue "2025-07" = some (2025, 7)
    ∧ (1 ≤ (7 : Int) ∧ (7 : Int) ≤ 12) := by
  refine ⟨by decide, ?_⟩
  obtain ⟨-, p1, p2, -, -, -, hb1, hb2⟩ :=
    (parseMonthValue_spec "2025-07").2.1 2025 7 (by decide)
  exact ⟨hb1, hb2⟩

end BudgetPulse
